import Mathlib

set_option linter.unusedVariables false

/-!
Verification development for the OBS Operator HTTP gateway
(`obs_operator.py`).  Python strings are embedded as `List Char`; the
stateful request lifecycle (response headers, temporary credential files,
subprocess execution) is embedded as an explicit event trace.  Machine
integers do not occur; timestamps are modelled as `Int` seconds.
-/

/-- Python `str` is embedded as a list of characters. -/
abbrev Str := List Char

/-- Python truthiness of an optional string: `None` and the empty string
are falsy, every other string is truthy. -/
def otruthy (o : Option Str) : Bool := !(o.getD []).isEmpty

/-- Python `s.split(sep)` for a one-character separator (no maxsplit):
splits on every occurrence, keeping empty groups; the split of the empty
string is `[""]`. -/
def pySplit (sep : Char) : Str → List Str
  | [] => [[]]
  | c :: rest =>
    match pySplit sep rest with
    | [] => [[]]
    | g :: gs => if c = sep then [] :: g :: gs else (c :: g) :: gs

/-- Python `s.split(sep, maxsplit)` for a one-character separator: at most
`maxs` splits are performed, the remainder is kept whole.  Structurally
recursive on the string so that it reduces in the kernel. -/
def pySplitMaxAux (sep : Char) : Str → Nat → List Str
  | [], _ => [[]]
  | c :: rest, 0 => [c :: rest]
  | c :: rest, n + 1 =>
    if c = sep then [] :: pySplitMaxAux sep rest n
    else
      match pySplitMaxAux sep rest (n + 1) with
      | [] => [[c]]
      | g :: gs => (c :: g) :: gs

/-- Python `s.split(sep, maxsplit)` (argument order as in the source). -/
def pySplitMax (sep : Char) (n : Nat) (s : Str) : List Str := pySplitMaxAux sep s n

/-- Python `sep.join(xs)` for a one-character separator. -/
def pyJoin (sep : Char) (xs : List Str) : Str := List.intercalate [sep] xs

/-- Python `s.endswith(suffix)`. -/
def pyEndsWith (st sfx : Str) : Bool := st.drop (st.length - sfx.length) == sfx

/-- Python `'.'.join(domain.split('.')[-2:])`: the last two dot-separated
labels of a domain (the whole domain when it has fewer than two labels),
as used by `apiurl_get` and `origin_domain_get`. -/
def lastTwoLabels (domain : Str) : Str :=
  let parts := pySplit '.' domain
  pyJoin '.' (parts.drop (parts.length - 2))

/-- Index of the first occurrence of a character (Python `s.find(c)`,
with `none` for "not found"). -/
def charIdx (c : Char) : Str → Option Nat
  | [] => none
  | d :: rest => if d = c then some 0 else (charIdx c rest).map (· + 1)

/-- Characters allowed in a URL scheme by `urllib.parse`. -/
def schemeChar (c : Char) : Bool := c.isAlphanum || c == '+' || c == '-' || c == '.'

/-- The scheme-stripping step of `urllib.parse.urlsplit`: when the text
before the first colon is a wellformed scheme (first character a letter,
rest scheme characters), drop it together with the colon. -/
def stripScheme (url : Str) : Str :=
  match charIdx ':' url with
  | some i =>
      if 0 < i && (url.take i).all schemeChar && (url.headD ' ').isAlpha then
        url.drop (i + 1)
      else url
  | none => url

/-- The `_splitnetloc` step of `urllib.parse`: the network location runs
until the first `/`, `?` or `#`. -/
def splitNetlocChars (s : Str) : Str :=
  s.takeWhile (fun c => !(c == '/' || c == '?' || c == '#'))

/-- `urllib.parse.urlparse(url).netloc`: present only when, after scheme
stripping, the remainder starts with `//`; empty otherwise. -/
def netloc (url : Str) : Str :=
  match stripScheme url with
  | '/' :: '/' :: rest => splitNetlocChars rest
  | _ => []

/-- Server-level configuration: the `RequestHandler.apiurl` and
`RequestHandler.session` class attributes set from the command line
(`--apiurl` fixed-endpoint override, `--session` fixed-session override). -/
structure Config where
  apiurl : Option Str
  session : Option Str
deriving DecidableEq

/-- The request headers consulted by the handler. -/
structure Headers where
  host : Option Str
  origin : Option Str
  accept : Option Str
deriving DecidableEq

/-- One inbound HTTP request.  `path` is the path component of the request
URL (the query string already split off by `urlparse`), `query` is the
`parse_qs` result, and `cookieSession` abstracts the value that
`SimpleCookie` extraction of the `openSUSE_session` cookie from the
`Cookie` header yields (`none` when the header or the cookie is absent). -/
structure Request where
  headers : Headers
  cookieSession : Option Str
  path : Str
  query : List (Str × List Str)
deriving DecidableEq

/-- Query dictionaries produced by `parse_qs`. -/
abbrev Query := List (Str × List Str)

/-- Python `key in query` / `query[key]` lookup on a `parse_qs` dict. -/
def qGet (q : Query) (k : Str) : Option (List Str) :=
  (q.find? (fun p => p.1 == k)).map Prod.snd

/-- Python `key in query`. -/
def qHas (q : Query) (k : Str) : Bool := (qGet q k).isSome

/-- RequestHandler.apiurl_get: the fixed override when truthy; otherwise
`https://api.` plus the last two labels of the `Host` header with the port
stripped; `None` when the host is absent, empty, or dotless. -/
def apiurl_get (cfg : Config) (h : Headers) : Option Str :=
  if otruthy cfg.apiurl then cfg.apiurl
  else
    match h.host with
    | none => none
    | some host =>
      if host.isEmpty then none
      else
        let domain := (pySplitMax ':' 2 host).headD []
        if '.' ∈ domain then
          some (("https://api.").toList ++ lastTwoLabels domain)
        else none

/-- RequestHandler.origin_domain_get: the last two labels of the domain of
the `Origin` header (netloc, port stripped), `None` when the header is
absent or its domain has no dot. -/
def origin_domain_get (h : Headers) : Option Str :=
  match h.origin with
  | none => none
  | some origin =>
    let domain := (pySplitMax ':' 2 (netloc origin)).headD []
    if '.' ∈ domain then some (lastTwoLabels domain) else none

/-- RequestHandler.session_get: the fixed override when truthy, otherwise
the session cookie value extracted from the `Cookie` header. -/
def session_get (cfg : Config) (req : Request) : Option Str :=
  if otruthy cfg.session then cfg.session else req.cookieSession

/-- Command token `osc`. -/
def oscTok : Str := ("osc").toList

/-- Command token `origin`. -/
def originTok : Str := ("origin").toList

/-- Command token `-p`. -/
def pFlagTok : Str := ("-p").toList

/-- Command token `config`. -/
def configTok : Str := ("config").toList

/-- Command token `history`. -/
def historyTok : Str := ("history").toList

/-- Command token `list`. -/
def listTok : Str := ("list").toList

/-- Command token `package`. -/
def packageTok : Str := ("package").toList

/-- Command token `potentials`. -/
def potentialsTok : Str := ("potentials").toList

/-- Command token `projects`. -/
def projectsTok : Str := ("projects").toList

/-- Command token `report`. -/
def reportTok : Str := ("report").toList

/-- Command token `rdiff`. -/
def rdiffTok : Str := ("rdiff").toList

/-- Command token `sr`. -/
def srTok : Str := ("sr").toList

/-- Command token `staging`. -/
def stagingTok : Str := ("staging").toList

/-- Command token `select`. -/
def selectTok : Str := ("select").toList

/-- Command flag `--move`. -/
def moveTok : Str := ("--move").toList

/-- Command flag `--format`. -/
def fmtFlagTok : Str := ("--format").toList

/-- Command flag `--revision`. -/
def revisionTok : Str := ("--revision").toList

/-- Command flag `--origins-only`. -/
def originsOnlyTok : Str := ("--origins-only").toList

/-- Command flag `--force-refresh`. -/
def forceRefreshTok : Str := ("--force-refresh").toList

/-- Command flag `--debug`. -/
def debugFlagTok : Str := ("--debug").toList

/-- Command flag `-m`. -/
def mFlagTok : Str := ("-m").toList

/-- Command flag `--yes`. -/
def yesTok : Str := ("--yes").toList

/-- Format name `json`. -/
def jsonTok : Str := ("json").toList

/-- Format name `yaml`. -/
def yamlTok : Str := ("yaml").toList

/-- Default submit message `created via operator`. -/
def defaultMsgTok : Str := ("created via operator").toList

/-- The literal body token `failed`. -/
def failedTok : Str := ("failed").toList

/-- Query key `origins-only`. -/
def originsOnlyKey : Str := ("origins-only").toList

/-- Query key `force-refresh`. -/
def forceRefreshKey : Str := ("force-refresh").toList

/-- Query key `debug`. -/
def debugKey : Str := ("debug").toList

/-- Query key `format`. -/
def formatKey : Str := ("format").toList

/-- Query key `message`. -/
def messageKey : Str := ("message").toList

/-- RequestHandler.command_format_add: the shared output-format helper.
A `format` is first taken from the `Accept` header when that header is
truthy — `accept.split('/', 2)[1]`, kept only when it equals `json` or
`yaml` — else from the first value of the `format` query parameter when
present; when the final value is truthy, `--format` and the value are
appended.  The result is `none` exactly when the Python code raises an
uncaught `IndexError`: a truthy `Accept` header without `/` (so `[1]` is
out of range), or a present `format` key whose value list is empty (never
produced by `parse_qs`).  Python's `None` and `''` are both represented by
the falsy `[]`, faithful because only truthiness and the final value are
ever used. -/
def command_format_add (accept : Option Str) (q : Query) (cmd : List Str) :
    Option (List Str) := do
  let fmt1 : Str ←
    if otruthy accept then
      match (pySplitMax '/' 2 (accept.getD []))[1]? with
      | none => none
      | some sub => some (if sub == jsonTok || sub == yamlTok then sub else [])
    else some []
  let fmt2 : Str ←
    if fmt1.isEmpty then
      match qGet q formatKey with
      | some vs =>
        match vs[0]? with
        | none => none
        | some v => some v
      | none => some []
    else some fmt1
  some (if fmt2.isEmpty then cmd else cmd ++ [fmtFlagTok, fmt2])

/-- RequestHandler.handle_origin_config. -/
def handle_origin_config (args : List Str) (q : Query) : Option (List Str) := do
  let a0 ← args[0]?
  let cmd := [oscTok, originTok, pFlagTok, a0, configTok]
  some (if qHas q originsOnlyKey then cmd ++ [originsOnlyTok] else cmd)

/-- RequestHandler.handle_origin_history. -/
def handle_origin_history (args : List Str) (q : Query) (accept : Option Str) :
    Option (List Str) := do
  let a0 ← args[0]?
  let cmd ← command_format_add accept q [oscTok, originTok, pFlagTok, a0, historyTok]
  some (if 1 < args.length then cmd ++ [args.getD 1 []] else cmd)

/-- RequestHandler.handle_origin_list. -/
def handle_origin_list (args : List Str) (q : Query) (accept : Option Str) :
    Option (List Str) := do
  let a0 ← args[0]?
  let cmd := [oscTok, originTok, pFlagTok, a0, listTok]
  let cmd := if qHas q forceRefreshKey then cmd ++ [forceRefreshTok] else cmd
  command_format_add accept q cmd

/-- RequestHandler.handle_origin_package. -/
def handle_origin_package (args : List Str) (q : Query) : Option (List Str) := do
  let a0 ← args[0]?
  let cmd := [oscTok, originTok, pFlagTok, a0, packageTok]
  let cmd := if qHas q debugKey then cmd ++ [debugFlagTok] else cmd
  some (if 1 < args.length then cmd ++ [args.getD 1 []] else cmd)

/-- RequestHandler.handle_origin_potentials. -/
def handle_origin_potentials (args : List Str) (q : Query) (accept : Option Str) :
    Option (List Str) := do
  let a0 ← args[0]?
  let cmd ← command_format_add accept q [oscTok, originTok, pFlagTok, a0, potentialsTok]
  some (if 1 < args.length then cmd ++ [args.getD 1 []] else cmd)

/-- RequestHandler.handle_origin_projects: no positional project. -/
def handle_origin_projects (args : List Str) (q : Query) (accept : Option Str) :
    Option (List Str) :=
  command_format_add accept q [oscTok, originTok, projectsTok]

/-- RequestHandler.handle_origin_report. -/
def handle_origin_report (args : List Str) (q : Query) : Option (List Str) := do
  let a0 ← args[0]?
  let cmd := [oscTok, originTok, pFlagTok, a0, reportTok]
  some (if qHas q forceRefreshKey then cmd ++ [forceRefreshTok] else cmd)

/-- RequestHandler.handle_package_diff: three required positionals, an
optional fourth (target package), and with five or more arguments a
`--revision` flag whose value is `':'.join(args[4:6])`. -/
def handle_package_diff (args : List Str) (q : Query) : Option (List Str) := do
  let a0 ← args[0]?
  let a1 ← args[1]?
  let a2 ← args[2]?
  let cmd := [oscTok, rdiffTok, a0, a1, a2]
  let cmd := if 4 ≤ args.length then cmd ++ [args.getD 3 []] else cmd
  some (if 5 ≤ args.length then
          cmd ++ [revisionTok, pyJoin ':' ((args.drop 4).take 2)]
        else cmd)

/-- The JSON body of a POST request, restricted to the fields the source
reads: `user`, `project`, the `selection` mapping (association list in the
dict's insertion order), and the `move` field given as presence plus the
truthiness of its value. -/
structure PostData where
  user : Option Str
  project : Str
  selection : List (Str × List Str)
  move : Option Bool
deriving DecidableEq

/-- RequestHandler.staging_command. -/
def staging_command (project : Str) (sub : Str) : List Str :=
  [oscTok, stagingTok, pFlagTok, project, sub]

/-- The loop body of RequestHandler.handle_staging_select, one iteration
per `selection` entry. -/
def selectLoop (project : Str) (mv : Bool) : List (Str × List Str) → List (List Str)
  | [] => []
  | (staging, requests) :: rest =>
      (staging_command project selectTok ++ (if mv then [moveTok] else []) ++
        staging :: requests) :: selectLoop project mv rest

/-- RequestHandler.handle_staging_select: the generator over
`data['selection'].items()`; the move flag is added when `'move' in data
and data['move']` holds. -/
def handle_staging_select (d : PostData) : List (List Str) :=
  selectLoop d.project (d.move.getD false) d.selection

/-- RequestHandler.handle_request_submit: three positionals, `-m` with the
`message` query value when present and truthy else the fixed default, and
`--yes`; returns a one-element batch. -/
def handle_request_submit (args : List Str) (q : Query) : Option (List (List Str)) := do
  let a0 ← args[0]?
  let a1 ← args[1]?
  let a2 ← args[2]?
  let msg : Str ←
    match qGet q messageKey with
    | some vs =>
      match vs[0]? with
      | none => none
      | some v => some (if v.isEmpty then defaultMsgTok else v)
    | none => some defaultMsgTok
  some [[oscTok, srTok, a0, a1, a2, mFlagTok, msg, yesTok]]

/-- RequestHandler.GET_PATHS. -/
def GET_PATHS : List Str :=
  [("origin/config").toList, ("origin/history").toList, ("origin/list").toList,
   ("origin/package").toList, ("origin/potentials").toList, ("origin/projects").toList,
   ("origin/report").toList, ("package/diff").toList]

/-- RequestHandler.POST_PATHS. -/
def POST_PATHS : List Str :=
  [("request/submit").toList, ("staging/select").toList]

/-- The `getattr` dispatch of do_GET: route key to handler.  `none` for a
key outside `GET_PATHS` models the `AttributeError` (unreachable, the
caller checks membership first). -/
def getDispatch (rk : Str) (args : List Str) (q : Query) (accept : Option Str) :
    Option (List Str) :=
  if rk = ("origin/config").toList then handle_origin_config args q
  else if rk = ("origin/history").toList then handle_origin_history args q accept
  else if rk = ("origin/list").toList then handle_origin_list args q accept
  else if rk = ("origin/package").toList then handle_origin_package args q
  else if rk = ("origin/potentials").toList then handle_origin_potentials args q accept
  else if rk = ("origin/projects").toList then handle_origin_projects args q accept
  else if rk = ("origin/report").toList then handle_origin_report args q
  else if rk = ("package/diff").toList then handle_package_diff args q
  else none

/-- The `getattr` dispatch of do_POST: route key to batch of commands. -/
def postDispatch (rk : Str) (args : List Str) (q : Query) (d : PostData) :
    Option (List (List Str)) :=
  if rk = ("request/submit").toList then handle_request_submit args q
  else if rk = ("staging/select").toList then some (handle_staging_select d)
  else none

/-- Identifier of the cookie-jar temporary file (`self.cookiejar_file`). -/
def cjId : Nat := 0

/-- Identifier of the oscrc temporary file (`self.oscrc_file`). -/
def oscId : Nat := 1

/-- Observable events of one request: response-line and header emission,
body writes, temporary-file lifecycle, and subprocess execution. -/
inductive Ev where
  | sendResponse (code : Nat)
  | sendHeader (k v : Str)
  | endHeaders
  | write (s : Str)
  | createFile (fid : Nat)
  | writeFile (fid : Nat)
  | setMtime (fid : Nat) (t : Int)
  | deleteFile (fid : Nat)
  | exec (cmd : List Str)
deriving DecidableEq

/-- The three OSCRequestEnvironmentException messages of the source. -/
inductive ExcMsg where
  | endpointUndetermined
  | originMismatch
  | sessionMissing
deriving DecidableEq

/-- The exception message strings (`str(e)`). -/
def excMsgStr : ExcMsg → Str
  | ExcMsg.endpointUndetermined => ("unable to determine apiurl").toList
  | ExcMsg.originMismatch => ("origin does not match host domain").toList
  | ExcMsg.sessionMissing => ("unable to determine session").toList

/-- Outcome of OSCRequestEnvironment.__enter__: normal return, a raised
OSCRequestEnvironmentException, or an uncaught filesystem error from one
of the temporary-file operations. -/
inductive EnterRes where
  | ok
  | raised (m : ExcMsg)
  | fsError
deriving DecidableEq

/-- Success/failure switches for the four filesystem operations inside
acquisition: creation of the two `tempfile.NamedTemporaryFile`s, the
oscrc write (`oscrc_create`) and the cookie-jar write
(`cookiejar_create`).  `false` means the operation raises. -/
structure FsB where
  cjCreate : Bool
  oscCreate : Bool
  oscWrite : Bool
  cjWrite : Bool
deriving DecidableEq

/-- All filesystem operations succeed. -/
def fsOk : FsB := ⟨true, true, true, true⟩

/-- The file events of sandbox acquisition inside __enter__, in source
order: create the cookie-jar file, create the oscrc file, write and flush
the oscrc (oscrc_create) and backdate its modification time to
`time.time() - 3600`, then write and flush the cookie jar
(cookiejar_create).  `t` is the `time.time()` reading; the second
component is `true` when every operation succeeded. -/
def acquireEv (fs : FsB) (t : Int) : List Ev × Bool :=
  if !fs.cjCreate then ([], false)
  else if !fs.oscCreate then ([Ev.createFile cjId], false)
  else if !fs.oscWrite then ([Ev.createFile cjId, Ev.createFile oscId], false)
  else if !fs.cjWrite then
    ([Ev.createFile cjId, Ev.createFile oscId, Ev.writeFile oscId,
      Ev.setMtime oscId (t - 3600)], false)
  else
    ([Ev.createFile cjId, Ev.createFile oscId, Ev.writeFile oscId,
      Ev.setMtime oscId (t - 3600), Ev.writeFile cjId], true)

/-- Header name `Content-type`. -/
def ctKey : Str := ("Content-type").toList

/-- Header value `text/plain`. -/
def ctVal : Str := ("text/plain").toList

/-- Header name `Access-Control-Allow-Credentials`. -/
def accCredKey : Str := ("Access-Control-Allow-Credentials").toList

/-- Header value `true`. -/
def trueTok : Str := ("true").toList

/-- Header name `Access-Control-Allow-Origin`. -/
def acOriginKey : Str := ("Access-Control-Allow-Origin").toList

/-- Header name `Allow`. -/
def allowKey : Str := ("Allow").toList

/-- Header value `OPTIONS, GET, POST`. -/
def allowVal : Str := ("OPTIONS, GET, POST").toList

/-- Header name `Access-Control-Allow-Methods`. -/
def acMethodsKey : Str := ("Access-Control-Allow-Methods").toList

/-- Header value `GET, POST`. -/
def acMethodsVal : Str := ("GET, POST").toList

/-- Header name `Access-Control-Allow-Headers`. -/
def acHeadersKey : Str := ("Access-Control-Allow-Headers").toList

/-- Header value of the CORS allowed-headers line. -/
def acHeadersVal : Str :=
  ("Access-Control-Allow-Origin, Content-Type, X-Requested-With").toList

/-- The validation section of OSCRequestEnvironment.__enter__ (lines up to
the session check): `some m` when the exception `m` is raised, `none` when
validation passes.  The apiurl must be truthy; when no fixed endpoint
override is configured and an origin domain is present, the apiurl must
end with the origin domain; when `rs` (require_session), a session must be
resolved. -/
def validationGate (cfg : Config) (req : Request) (rs : Bool) : Option ExcMsg :=
  let apiurl := apiurl_get cfg req.headers
  let od := origin_domain_get req.headers
  if !otruthy apiurl ||
      (!otruthy cfg.apiurl && otruthy od &&
        !pyEndsWith (apiurl.getD []) (od.getD [])) then
    some (if !otruthy apiurl then ExcMsg.endpointUndetermined else ExcMsg.originMismatch)
  else if rs && !otruthy (session_get cfg req) then
    some ExcMsg.sessionMissing
  else none

/-- The HTTP status code sent for each raised environment exception: 400
for the two validation failures, 401 for a missing session. -/
def excCode : ExcMsg → Nat
  | ExcMsg.sessionMissing => 401
  | _ => 400

/-- OSCRequestEnvironment.__enter__.  On a validation failure: respond
with the failure's status code, end headers, and raise.  Otherwise respond
200, send the content-type header and, when an origin domain is present,
the two CORS headers; then acquire the sandbox files.  `t` is the
`time.time()` reading used by oscrc_create. -/
def enterEv (cfg : Config) (req : Request) (user : Option Str) (rs : Bool)
    (fs : FsB) (t : Int) : List Ev × EnterRes :=
  match validationGate cfg req rs with
  | some m =>
    ([Ev.sendResponse (excCode m), Ev.endHeaders], EnterRes.raised m)
  | none =>
    let hdr := [Ev.sendResponse 200, Ev.sendHeader ctKey ctVal] ++
      (if otruthy (origin_domain_get req.headers) then
        [Ev.sendHeader accCredKey trueTok,
         Ev.sendHeader acOriginKey (req.headers.origin.getD [])]
       else [])
    (hdr ++ (acquireEv fs t).1,
      if (acquireEv fs t).2 then EnterRes.ok else EnterRes.fsError)

/-- OSCRequestEnvironment.__exit__: both NamedTemporaryFile exits, cookie
jar first, each closing and thereby deleting its file. -/
def exitEvs : List Ev := [Ev.deleteFile cjId, Ev.deleteFile oscId]

/-- The `with OSCRequestEnvironment(...)` statement wrapped in
`try/except OSCRequestEnvironmentException` as in do_GET/do_POST.
Python's `with` semantics: when __enter__ returns normally the body runs
and __exit__ runs afterwards whether or not the body raised; when
__enter__ raises, __exit__ is never invoked.  A raised
OSCRequestEnvironmentException is caught by the handler, which writes
`str(e)` to the body; a filesystem error propagates uncaught.
`bodyEvs` are the events of the with-block body. -/
def runWith (cfg : Config) (req : Request) (user : Option Str) (rs : Bool)
    (fs : FsB) (t : Int) (bodyEvs : List Ev) : List Ev :=
  match enterEv cfg req user rs fs t with
  | (evs, EnterRes.ok) => evs ++ bodyEvs ++ exitEvs
  | (evs, EnterRes.raised m) => evs ++ [Ev.write (excMsgStr m)]
  | (evs, EnterRes.fsError) => evs

/-- The echo line `'$ ' + ' '.join(command) + '\n'` written by do_POST
before each command. -/
def echoLine (cmd : List Str) : Str :=
  '$' :: ' ' :: (pyJoin ' ' cmd ++ ['\n'])

/-- The command loop of do_POST: echo each command, run it, and on the
first non-zero exit status write `failed` and stop.  `execOk cmd` is the
`returncode == 0` outcome of the execute primitive. -/
def postLoop (execOk : List Str → Bool) : List (List Str) → List Ev
  | [] => []
  | c :: rest =>
      Ev.write (echoLine c) :: Ev.exec c ::
        (if execOk c then postLoop execOk rest else [Ev.write failedTok])

/-- The with-block body of do_GET: resolve the handler and its command
(`none` models a handler raising, which propagates), end headers, and when
the command is truthy execute it, writing `failed` on non-zero exit. -/
def getBody (rk : Str) (args : List Str) (q : Query) (accept : Option Str)
    (execOk : List Str → Bool) : List Ev :=
  match getDispatch rk args q accept with
  | none => []
  | some cmd =>
      Ev.endHeaders ::
        (if cmd.isEmpty then []
         else Ev.exec cmd :: (if execOk cmd then [] else [Ev.write failedTok]))

/-- The with-block body of do_POST: resolve the batch, end headers, run
the command loop. -/
def postBody (rk : Str) (args : List Str) (q : Query) (d : PostData)
    (execOk : List Str → Bool) : List Ev :=
  match postDispatch rk args q d with
  | none => []
  | some cmds => Ev.endHeaders :: postLoop execOk cmds

/-- Modelled from the spec: the three identity lines of the root
introspection route (`namespace`, `name`, `version`); their exact text
comes from `osclib.common`, which is outside the supplied source. -/
def rootWrites : List Ev :=
  [Ev.write (("namespace line").toList), Ev.write (("name line").toList),
   Ev.write (("version line").toList)]

/-- RequestHandler.do_GET: strip leading slashes, split the path, join the
first two segments into the route key; the empty route key serves the
introspection text; fewer than three segments or a key outside GET_PATHS
yields 404; otherwise the request runs inside the OSC environment. -/
def do_GET (cfg : Config) (req : Request) (fs : FsB) (execOk : List Str → Bool)
    (t : Int) : List Ev :=
  let parts := pySplit '/' (req.path.dropWhile (fun c => c == '/'))
  let rk := pyJoin '/' (parts.take 2)
  if rk = [] then
    [Ev.sendResponse 200, Ev.sendHeader ctKey ctVal, Ev.endHeaders] ++ rootWrites
  else if parts.length < 3 ∨ rk ∉ GET_PATHS then
    [Ev.sendResponse 404, Ev.endHeaders]
  else
    runWith cfg req none true fs t (getBody rk (parts.drop 2) req.query req.headers.accept execOk)

/-- RequestHandler.do_POST: like do_GET but with the POST allow-list, a
two-segment minimum, the body's `user` field passed to the environment,
and the sequential command loop. -/
def do_POST (cfg : Config) (req : Request) (d : PostData) (fs : FsB)
    (execOk : List Str → Bool) (t : Int) : List Ev :=
  let parts := pySplit '/' (req.path.dropWhile (fun c => c == '/'))
  let rk := pyJoin '/' (parts.take 2)
  if parts.length < 2 ∨ rk ∉ POST_PATHS then
    [Ev.sendResponse 404, Ev.endHeaders]
  else
    runWith cfg req d.user true fs t (postBody rk (parts.drop 2) req.query d execOk)

/-- RequestHandler.do_OPTIONS: enter the environment with
`require_session=False`; on success send the two CORS method/header lines
(and tear the sandbox down when the with-block closes), on a caught
environment exception send the `Allow` header instead; in both cases call
`end_headers()` after the try/except.  A filesystem error propagates
before that call. -/
def do_OPTIONS (cfg : Config) (req : Request) (fs : FsB) (t : Int) : List Ev :=
  match enterEv cfg req none false fs t with
  | (evs, EnterRes.ok) =>
      evs ++ [Ev.sendHeader acMethodsKey acMethodsVal,
              Ev.sendHeader acHeadersKey acHeadersVal] ++ exitEvs ++ [Ev.endHeaders]
  | (evs, EnterRes.raised _) =>
      evs ++ [Ev.sendHeader allowKey allowVal, Ev.endHeaders]
  | (evs, EnterRes.fsError) => evs

/-- One line of the response as seen on the wire. -/
inductive WireLine where
  | status (code : Nat)
  | header (k v : Str)
  | blank
  | chunk (s : Str)
deriving DecidableEq

/-- The header buffering of BaseHTTPRequestHandler: `send_response` and
`send_header` append to an internal buffer; `end_headers` appends the
header-terminating blank line and flushes the buffer to the wire;
body writes go to the wire directly. -/
def wireStep : List WireLine × List WireLine → Ev → List WireLine × List WireLine
  | (sent, buf), Ev.sendResponse c => (sent, buf ++ [WireLine.status c])
  | (sent, buf), Ev.sendHeader k v => (sent, buf ++ [WireLine.header k v])
  | (sent, buf), Ev.endHeaders => (sent ++ buf ++ [WireLine.blank], [])
  | (sent, buf), Ev.write s => (sent ++ [WireLine.chunk s], buf)
  | st, _ => st

/-- Everything the client receives for a trace of events. -/
def wireOf (evs : List Ev) : List WireLine :=
  (evs.foldl wireStep ([], [])).1

/-- The HTTP header section of a response: the wire lines before the first
blank line. -/
def headerSectionOf (wire : List WireLine) : List WireLine :=
  wire.takeWhile (fun l => !(l == WireLine.blank))

/-- The commands executed in a trace, in execution order. -/
def executedOf (evs : List Ev) : List (List Str) :=
  evs.filterMap (fun e => match e with | Ev.exec cmd => some cmd | _ => none)

/-- How many times the literal body token `failed` is written in a trace. -/
def failedCount (evs : List Ev) : Nat :=
  (evs.filter (fun e => e == Ev.write failedTok)).length

/-- The format chosen by the spec's precedence rule, stated from the
spec's words for comparison with `command_format_add`: when the `Accept`
header's subtype is `json` or `yaml`, that subtype; otherwise the value of
a present `format` query parameter; otherwise no format at all. -/
def specFormatChoice (accept : Option Str) (q : Query) : Option Str :=
  let qFallback := (qGet q formatKey).bind (fun vs => vs[0]?)
  match accept with
  | none => qFallback
  | some a =>
    match (pySplitMax '/' 2 a)[1]? with
    | some sub => if sub == jsonTok || sub == yamlTok then some sub else qFallback
    | none => qFallback

/-- A query dictionary as `parse_qs` produces it: every key has a
non-empty list of non-empty values (blank values are dropped by default). -/
def ParsedQS (q : Query) : Prop :=
  ∀ p ∈ q, p.2 ≠ [] ∧ ∀ v ∈ p.2, v ≠ []

example : apiurl_get ⟨none, none⟩ ⟨some (("sub.example.com").toList), none, none⟩
    = some (("https://api.example.com").toList) := by decide

example : apiurl_get ⟨none, none⟩ ⟨some (("sub.example.com:8080").toList), none, none⟩
    = some (("https://api.example.com").toList) := by decide

example : apiurl_get ⟨none, none⟩ ⟨some (("localhost").toList), none, none⟩ = none := by decide

example : origin_domain_get ⟨none, some (("https://x.e.com").toList), none⟩
    = some (("e.com").toList) := by decide

example : pyEndsWith (("https://api.example.com").toList) (("e.com").toList) = true := by decide

theorem pySplit_ne_nil (sep : Char) (s : Str) : pySplit sep s ≠ [] := by
  cases s with
  | nil => simp [pySplit]
  | cons c rest =>
    simp only [pySplit]
    split
    · simp
    · split <;> simp

theorem pySplit_append (sep : Char) (a b : Str) :
    pySplit sep (a ++ sep :: b) = pySplit sep a ++ pySplit sep b := by
  induction a with
  | nil =>
    rcases h : pySplit sep b with _ | ⟨g, gs⟩
    · exact absurd h (pySplit_ne_nil sep b)
    · simp [pySplit, h]
  | cons c a' ih =>
    rcases ha : pySplit sep a' with _ | ⟨g, gs⟩
    · exact absurd ha (pySplit_ne_nil sep a')
    · show pySplit sep (c :: (a' ++ sep :: b)) = pySplit sep (c :: a') ++ pySplit sep b
      simp only [pySplit, ih, ha, List.cons_append]
      split <;> simp

theorem pySplitMaxAux_ne_nil (sep : Char) (s : Str) (n : Nat) :
    pySplitMaxAux sep s n ≠ [] := by
  cases s with
  | nil => simp [pySplitMaxAux]
  | cons c rest =>
    cases n with
    | zero => simp [pySplitMaxAux]
    | succ n =>
      simp only [pySplitMaxAux]
      split
      · simp
      · rcases h : pySplitMaxAux sep rest (n + 1) with _ | ⟨g, gs⟩ <;> simp

theorem pySplitMaxAux_no_sep (sep : Char) :
    ∀ (s : Str) (n : Nat), sep ∉ s → pySplitMaxAux sep s n = [s] := by
  intro s
  induction s with
  | nil => intro n _; rfl
  | cons c rest ih =>
    intro n hs
    simp only [List.mem_cons, not_or] at hs
    cases n with
    | zero => rfl
    | succ n =>
      simp only [pySplitMaxAux]
      rw [if_neg (fun he => hs.1 he.symm), ih (n + 1) hs.2]

theorem pySplitMaxAux_first_sep (sep : Char) :
    ∀ (a b : Str) (n : Nat), sep ∉ a →
      pySplitMaxAux sep (a ++ sep :: b) (n + 1) = a :: pySplitMaxAux sep b n := by
  intro a
  induction a with
  | nil => intro b n _; simp [pySplitMaxAux]
  | cons c a' ih =>
    intro b n hs
    simp only [List.mem_cons, not_or] at hs
    show pySplitMaxAux sep (c :: (a' ++ sep :: b)) (n + 1)
        = (c :: a') :: pySplitMaxAux sep b n
    simp only [pySplitMaxAux]
    rw [if_neg (fun he => hs.1 he.symm), ih b n hs.2]

theorem pySplitMaxAux_len2 (sep : Char) :
    ∀ (s : Str) (n : Nat), sep ∈ s → 2 ≤ (pySplitMaxAux sep s (n + 1)).length := by
  intro s
  induction s with
  | nil => intro n h; cases h
  | cons c rest ih =>
    intro n h
    simp only [pySplitMaxAux]
    by_cases hc : c = sep
    · rw [if_pos hc]
      rcases hr : pySplitMaxAux sep rest n with _ | ⟨g, gs⟩
      · exact absurd hr (pySplitMaxAux_ne_nil sep rest n)
      · simp
    · rw [if_neg hc]
      have hm : sep ∈ rest := by
        rcases List.mem_cons.mp h with h1 | h2
        · exact absurd h1.symm hc
        · exact h2
      have h2 := ih n hm
      rcases hr : pySplitMaxAux sep rest (n + 1) with _ | ⟨g, gs⟩
      · exact absurd hr (pySplitMaxAux_ne_nil sep rest (n + 1))
      · rw [hr] at h2
        simpa using h2

theorem append_cons_isEmpty (a : Str) (c : Char) (b : Str) :
    (a ++ c :: b).isEmpty = false := by cases a <;> rfl

theorem lastTwoLabels_ecom (sub : Str) :
    lastTwoLabels (sub ++ '.' :: ("example.com").toList) = ("example.com").toList := by
  have he : pySplit '.' (("example.com").toList)
      = [("example").toList, ("com").toList] := by rfl
  simp only [lastTwoLabels, pySplit_append, he]
  rw [List.drop_left']
  · rfl
  · simp

theorem otruthy_some (a : Str) (h : a ≠ []) : otruthy (some a) = true := by
  cases a with
  | nil => exact absurd rfl h
  | cons c r => rfl

theorem apiurl_get_ecom (cfg : Config) (sub : Str) (o a : Option Str)
    (h1 : otruthy cfg.apiurl = false) (h2 : ':' ∉ sub) :
    apiurl_get cfg ⟨some (sub ++ '.' :: ("example.com").toList), o, a⟩ =
      some (("https://api.example.com").toList) := by
  have hnc : ':' ∉ sub ++ '.' :: ("example.com").toList := by
    intro hm
    rcases List.mem_append.mp hm with hx | hx
    · exact h2 hx
    · exact absurd hx (by decide)
  have hsplit : pySplitMax ':' 2 (sub ++ '.' :: ("example.com").toList)
      = [sub ++ '.' :: ("example.com").toList] :=
    pySplitMaxAux_no_sep ':' _ 2 hnc
  have hdot : '.' ∈ sub ++ '.' :: ("example.com").toList :=
    List.mem_append_right sub (List.mem_cons_self '.' _)
  have hfin : ("https://api.").toList ++ ("example.com").toList
      = ("https://api.example.com").toList := by decide
  simp only [apiurl_get, h1, Bool.false_eq_true, if_false, append_cons_isEmpty,
    hsplit, List.headD_cons, if_pos hdot, lastTwoLabels_ecom, hfin]

theorem apiurl_get_ecom_port (cfg : Config) (sub port : Str) (o a : Option Str)
    (h1 : otruthy cfg.apiurl = false) (h2 : ':' ∉ sub) :
    apiurl_get cfg ⟨some ((sub ++ '.' :: ("example.com").toList) ++ ':' :: port), o, a⟩ =
      some (("https://api.example.com").toList) := by
  have hnc : ':' ∉ sub ++ '.' :: ("example.com").toList := by
    intro hm
    rcases List.mem_append.mp hm with hx | hx
    · exact h2 hx
    · exact absurd hx (by decide)
  have hsplit : pySplitMax ':' 2 ((sub ++ '.' :: ("example.com").toList) ++ ':' :: port)
      = (sub ++ '.' :: ("example.com").toList) :: pySplitMaxAux ':' port 1 :=
    pySplitMaxAux_first_sep ':' _ port 1 hnc
  have hdot : '.' ∈ sub ++ '.' :: ("example.com").toList :=
    List.mem_append_right sub (List.mem_cons_self '.' _)
  have hfin : ("https://api.").toList ++ ("example.com").toList
      = ("https://api.example.com").toList := by decide
  simp only [apiurl_get, h1, Bool.false_eq_true, if_false, append_cons_isEmpty,
    hsplit, List.headD_cons, if_pos hdot, lastTwoLabels_ecom, hfin]

theorem apiurl_get_nodot (cfg : Config) (dom : Str) (o a : Option Str)
    (h1 : otruthy cfg.apiurl = false) (h2 : ':' ∉ dom) (h3 : '.' ∉ dom) :
    apiurl_get cfg ⟨some dom, o, a⟩ = none := by
  cases dom with
  | nil => simp [apiurl_get, h1]
  | cons c rest =>
    have hsplit : pySplitMax ':' 2 (c :: rest) = [c :: rest] :=
      pySplitMaxAux_no_sep ':' _ 2 h2
    simp [apiurl_get, h1, hsplit, h3]

theorem apiurl_get_nodot_port (cfg : Config) (dom port : Str) (o a : Option Str)
    (h1 : otruthy cfg.apiurl = false) (h2 : ':' ∉ dom) (h3 : '.' ∉ dom) :
    apiurl_get cfg ⟨some (dom ++ ':' :: port), o, a⟩ = none := by
  have hsplit : pySplitMax ':' 2 (dom ++ ':' :: port) = dom :: pySplitMaxAux ':' port 1 :=
    pySplitMaxAux_first_sep ':' dom port 1 h2
  simp [apiurl_get, h1, append_cons_isEmpty, hsplit, h3]

theorem apiurl_get_absent (cfg : Config) (o a : Option Str)
    (h1 : otruthy cfg.apiurl = false) : apiurl_get cfg ⟨none, o, a⟩ = none := by
  simp [apiurl_get, h1]

theorem enterEv_apiurl_none (cfg : Config) (req : Request) (u : Option Str)
    (rs : Bool) (fs : FsB) (t : Int) (h : apiurl_get cfg req.headers = none) :
    enterEv cfg req u rs fs t =
      ([Ev.sendResponse 400, Ev.endHeaders], EnterRes.raised ExcMsg.endpointUndetermined) := by
  have hv : validationGate cfg req rs = some ExcMsg.endpointUndetermined := by
    simp [validationGate, h, otruthy]
  simp [enterEv, hv, excCode]

/-- C3: for every Host header of the form `sub.example.com`, optionally
with a port suffix, endpoint resolution with no fixed endpoint configured
returns exactly `https://api.example.com`; for every Host header whose
domain (the part before a port separator) contains no dot, and for an
absent Host header, resolution yields `None`, and the environment answers
the request with 400 raising the endpoint-undetermined exception. -/
theorem c3_endpoint_resolution :
    (∀ (cfg : Config) (sub : Str) (o a : Option Str),
      otruthy cfg.apiurl = false → ':' ∉ sub →
      apiurl_get cfg ⟨some (sub ++ '.' :: ("example.com").toList), o, a⟩ =
        some (("https://api.example.com").toList)) ∧
    (∀ (cfg : Config) (sub port : Str) (o a : Option Str),
      otruthy cfg.apiurl = false → ':' ∉ sub →
      apiurl_get cfg ⟨some ((sub ++ '.' :: ("example.com").toList) ++ ':' :: port), o, a⟩ =
        some (("https://api.example.com").toList)) ∧
    (∀ (cfg : Config) (dom port : Str) (o a : Option Str),
      otruthy cfg.apiurl = false → ':' ∉ dom → '.' ∉ dom →
      apiurl_get cfg ⟨some dom, o, a⟩ = none ∧
      apiurl_get cfg ⟨some (dom ++ ':' :: port), o, a⟩ = none) ∧
    (∀ (cfg : Config) (o a : Option Str),
      otruthy cfg.apiurl = false → apiurl_get cfg ⟨none, o, a⟩ = none) ∧
    (∀ (cfg : Config) (req : Request) (u : Option Str) (rs : Bool) (fs : FsB) (t : Int),
      apiurl_get cfg req.headers = none →
      enterEv cfg req u rs fs t =
        ([Ev.sendResponse 400, Ev.endHeaders], EnterRes.raised ExcMsg.endpointUndetermined)) :=
  ⟨fun cfg sub o a h1 h2 => apiurl_get_ecom cfg sub o a h1 h2,
   fun cfg sub port o a h1 h2 => apiurl_get_ecom_port cfg sub port o a h1 h2,
   fun cfg dom port o a h1 h2 h3 =>
     ⟨apiurl_get_nodot cfg dom o a h1 h2 h3, apiurl_get_nodot_port cfg dom port o a h1 h2 h3⟩,
   fun cfg o a h1 => apiurl_get_absent cfg o a h1,
   fun cfg req u rs fs t h => enterEv_apiurl_none cfg req u rs fs t h⟩

/-- Witness for C3 at concrete inputs: host `sub.example.com`, host
`sub.example.com:8080`, host `localhost`, absent host, and the 400
response for `localhost`. -/
theorem c3_witness :
    apiurl_get ⟨none, none⟩
      ⟨some (("sub").toList ++ '.' :: ("example.com").toList), none, none⟩ =
      some (("https://api.example.com").toList) ∧
    apiurl_get ⟨none, none⟩
      ⟨some ((("sub").toList ++ '.' :: ("example.com").toList) ++ ':' :: ("8080").toList),
        none, none⟩ =
      some (("https://api.example.com").toList) ∧
    apiurl_get ⟨none, none⟩ ⟨some (("localhost").toList), none, none⟩ = none ∧
    apiurl_get ⟨none, none⟩ ⟨none, none, none⟩ = none ∧
    enterEv ⟨none, none⟩ ⟨⟨some (("localhost").toList), none, none⟩, none, [], []⟩
        none true fsOk 0 =
      ([Ev.sendResponse 400, Ev.endHeaders], EnterRes.raised ExcMsg.endpointUndetermined) :=
  ⟨c3_endpoint_resolution.1 _ _ _ _ (by decide) (by decide),
   c3_endpoint_resolution.2.1 _ _ _ _ _ (by decide) (by decide),
   (c3_endpoint_resolution.2.2.1 _ _ [] _ _ (by decide) (by decide) (by decide)).1,
   c3_endpoint_resolution.2.2.2.1 _ _ _ (by decide),
   c3_endpoint_resolution.2.2.2.2 _ _ _ _ _ _ (by decide)⟩

theorem acquireEv_ok (fs : FsB) (t : Int) (h : (acquireEv fs t).2 = true) :
    acquireEv fs t =
      ([Ev.createFile cjId, Ev.createFile oscId, Ev.writeFile oscId,
        Ev.setMtime oscId (t - 3600), Ev.writeFile cjId], true) := by
  rcases fs with ⟨c1, c2, c3, c4⟩
  cases c1 <;> cases c2 <;> cases c3 <;> cases c4 <;> simp_all [acquireEv]

theorem enterEv_ok_form (cfg : Config) (req : Request) (u : Option Str) (rs : Bool)
    (fs : FsB) (t : Int) (h : (enterEv cfg req u rs fs t).2 = EnterRes.ok) :
    enterEv cfg req u rs fs t =
      (([Ev.sendResponse 200, Ev.sendHeader ctKey ctVal] ++
        (if otruthy (origin_domain_get req.headers) then
          [Ev.sendHeader accCredKey trueTok,
           Ev.sendHeader acOriginKey (req.headers.origin.getD [])] else [])) ++
        [Ev.createFile cjId, Ev.createFile oscId, Ev.writeFile oscId,
         Ev.setMtime oscId (t - 3600), Ev.writeFile cjId], EnterRes.ok) := by
  rcases hv : validationGate cfg req rs with _ | m
  · cases hq : (acquireEv fs t).2 with
    | false =>
      simp only [enterEv, hv, hq] at h
      exact absurd h (by simp)
    | true =>
      simp only [enterEv, hv]
      rw [acquireEv_ok fs t hq]
      simp
  · simp only [enterEv, hv] at h
    exact absurd h (by simp)

/-- C1 (amended): when `OSCRequestEnvironment.__enter__` completed
successfully, the `__exit__` release deletes both sandbox files on the
exit path of the with-block, whatever the body did (normal completion,
command failure, or a raised exception — `bodyEvs` ranges over every body
trace).  The unamended claim also demanded this when acquire only
partially completed; `c1_counterexample` shows the release is skipped
there. -/
theorem c1_release_after_acquire (cfg : Config) (req : Request) (u : Option Str)
    (rs : Bool) (fs : FsB) (t : Int) (bodyEvs : List Ev)
    (h : (enterEv cfg req u rs fs t).2 = EnterRes.ok) :
    Ev.deleteFile cjId ∈ runWith cfg req u rs fs t bodyEvs ∧
    Ev.deleteFile oscId ∈ runWith cfg req u rs fs t bodyEvs := by
  have hform := enterEv_ok_form cfg req u rs fs t h
  simp only [runWith, hform]
  constructor <;> simp [exitEvs]

/-- Witness for C1: a request whose acquisition succeeds, with a body that
raised after executing a command; both delete events are in the trace. -/
theorem c1_witness :
    Ev.deleteFile cjId ∈ runWith ⟨none, some (("s").toList)⟩
      ⟨⟨some (("a.example.com").toList), none, none⟩, none, [], []⟩ none true fsOk 0
      [Ev.endHeaders, Ev.exec [oscTok]] ∧
    Ev.deleteFile oscId ∈ runWith ⟨none, some (("s").toList)⟩
      ⟨⟨some (("a.example.com").toList), none, none⟩, none, [], []⟩ none true fsOk 0
      [Ev.endHeaders, Ev.exec [oscTok]] :=
  c1_release_after_acquire _ _ _ _ _ _ _ (by decide)

/-- Counterexample to C1 as stated: sandbox acquisition began (the
cookie-jar file was created) but the oscrc creation failed, so __enter__
raised; Python never invokes __exit__ for a failed __enter__, and neither
file-delete event occurs — the cookie-jar file is not released. -/
theorem c1_counterexample :
    Ev.createFile cjId ∈ runWith ⟨none, some (("s").toList)⟩
      ⟨⟨some (("a.example.com").toList), none, none⟩, none, [], []⟩ none true
      ⟨true, false, true, true⟩ 0 [] ∧
    Ev.deleteFile cjId ∉ runWith ⟨none, some (("s").toList)⟩
      ⟨⟨some (("a.example.com").toList), none, none⟩, none, [], []⟩ none true
      ⟨true, false, true, true⟩ 0 [] ∧
    Ev.deleteFile oscId ∉ runWith ⟨none, some (("s").toList)⟩
      ⟨⟨some (("a.example.com").toList), none, none⟩, none, [], []⟩ none true
      ⟨true, false, true, true⟩ 0 [] := by decide

/-- C4: every successful acquisition emits the backdating of the oscrc
modification time to `t - 3600`, where `t` is the `time.time()` reading
of `oscrc_create`; when acquire completes at a time `tDone` within 100
seconds after that reading, the modification time lies in
`[tDone - 3700, tDone - 3500]`. -/
theorem c4_config_mtime_bounds (cfg : Config) (req : Request) (u : Option Str)
    (rs : Bool) (fs : FsB) (t tDone : Int)
    (h : (enterEv cfg req u rs fs t).2 = EnterRes.ok)
    (h1 : t ≤ tDone) (h2 : tDone ≤ t + 100) :
    Ev.setMtime oscId (t - 3600) ∈ (enterEv cfg req u rs fs t).1 ∧
    tDone - 3700 ≤ t - 3600 ∧ t - 3600 ≤ tDone - 3500 := by
  refine ⟨?_, by omega, by omega⟩
  rw [enterEv_ok_form cfg req u rs fs t h]
  simp

/-- Witness for C4 at a concrete successful acquisition with `t = 0` and
completion time `tDone = 50`. -/
theorem c4_witness :
    Ev.setMtime oscId ((0 : Int) - 3600) ∈
      (enterEv ⟨none, some (("s").toList)⟩
        ⟨⟨some (("a.example.com").toList), none, none⟩, none, [], []⟩ none true fsOk 0).1 ∧
    (50 : Int) - 3700 ≤ (0 : Int) - 3600 ∧ (0 : Int) - 3600 ≤ (50 : Int) - 3500 :=
  c4_config_mtime_bounds _ _ _ _ _ 0 50 (by decide) (by decide) (by decide)

theorem validationGate_mismatch (cfg : Config) (req : Request) (rs : Bool) (od au : Str)
    (h1 : otruthy cfg.apiurl = false)
    (h2 : origin_domain_get req.headers = some od) (h3 : od ≠ [])
    (h4 : apiurl_get cfg req.headers = some au) (h5 : au ≠ [])
    (h6 : pyEndsWith au od = false) :
    validationGate cfg req rs = some ExcMsg.originMismatch := by
  simp only [validationGate, h1, h2, h4, h6, otruthy_some od h3, otruthy_some au h5,
    Option.getD_some, Bool.not_true, Bool.not_false, Bool.false_or, Bool.true_and,
    Bool.and_true, if_true, Bool.false_eq_true, if_false]

/-- C2 (amended): for every request with no fixed-endpoint override whose
origin domain is present but is not a string suffix of the derived
apiurl, the environment sends 400 and raises before any sandbox file is
created: the whole request trace is the 400 response plus the exception
message, and contains no file-creation event.  The unamended claim used
"last two labels differ" instead of the code's `endswith` test;
`c2_counterexample` separates the two. -/
theorem c2_reject_before_any_file (cfg : Config) (req : Request) (u : Option Str)
    (rs : Bool) (fs : FsB) (t : Int) (bodyEvs : List Ev) (od au : Str)
    (h1 : otruthy cfg.apiurl = false)
    (h2 : origin_domain_get req.headers = some od) (h3 : od ≠ [])
    (h4 : apiurl_get cfg req.headers = some au) (h5 : au ≠ [])
    (h6 : pyEndsWith au od = false) :
    runWith cfg req u rs fs t bodyEvs =
      [Ev.sendResponse 400, Ev.endHeaders, Ev.write (excMsgStr ExcMsg.originMismatch)] ∧
    ∀ n, Ev.createFile n ∉ runWith cfg req u rs fs t bodyEvs := by
  have hv := validationGate_mismatch cfg req rs od au h1 h2 h3 h4 h5 h6
  have htr : runWith cfg req u rs fs t bodyEvs =
      [Ev.sendResponse 400, Ev.endHeaders, Ev.write (excMsgStr ExcMsg.originMismatch)] := by
    simp [runWith, enterEv, hv, excCode]
  refine ⟨htr, ?_⟩
  rw [htr]
  intro n
  simp

/-- Witness for C2: origin `https://x.other.org` against host
`b.example.com` is rejected with 400 and no file event. -/
theorem c2_witness :
    runWith ⟨none, some (("s").toList)⟩
      ⟨⟨some (("b.example.com").toList), some (("https://x.other.org").toList), none⟩,
        none, [], []⟩ none true fsOk 0 [] =
      [Ev.sendResponse 400, Ev.endHeaders, Ev.write (excMsgStr ExcMsg.originMismatch)] ∧
    ∀ n, Ev.createFile n ∉ runWith ⟨none, some (("s").toList)⟩
      ⟨⟨some (("b.example.com").toList), some (("https://x.other.org").toList), none⟩,
        none, [], []⟩ none true fsOk 0 [] :=
  c2_reject_before_any_file _ _ _ _ _ _ _ (("other.org").toList)
    (("https://api.example.com").toList)
    (by decide) (by decide) (by decide) (by decide) (by decide) (by decide)

/-- Counterexample to C2 as stated: with host `sub.example.com` and origin
`http://x.e.com`, the origin domain's last two labels `e.com` differ from
the endpoint's last two labels `example.com`, yet
`"https://api.example.com".endswith("e.com")` holds, so the request is
accepted: sandbox files are created and no 400 is sent. -/
theorem c2_counterexample :
    origin_domain_get
        ⟨some (("sub.example.com").toList), some (("http://x.e.com").toList), none⟩ =
      some (("e.com").toList) ∧
    apiurl_get ⟨none, some (("s").toList)⟩
        ⟨some (("sub.example.com").toList), some (("http://x.e.com").toList), none⟩ =
      some (("https://api.example.com").toList) ∧
    lastTwoLabels (("https://api.example.com").toList) = ("example.com").toList ∧
    ("e.com").toList ≠ ("example.com").toList ∧
    Ev.createFile cjId ∈ runWith ⟨none, some (("s").toList)⟩
      ⟨⟨some (("sub.example.com").toList), some (("http://x.e.com").toList), none⟩,
        none, [], []⟩ none true fsOk 0 [] ∧
    Ev.sendResponse 400 ∉ runWith ⟨none, some (("s").toList)⟩
      ⟨⟨some (("sub.example.com").toList), some (("http://x.e.com").toList), none⟩,
        none, [], []⟩ none true fsOk 0 [] := by decide

/-- C5 (amended): `package/diff` with exactly five positional arguments
resolves to a command ending in `--revision` followed by the single
revision itself — `':'.join` of a one-element slice adds no separator, so
no trailing colon appears. -/
theorem c5_single_revision_no_colon (a0 a1 a2 a3 a4 : Str) (q : Query) :
    handle_package_diff [a0, a1, a2, a3, a4] q =
      some [oscTok, rdiffTok, a0, a1, a2, a3, revisionTok, a4] := by
  simp [handle_package_diff, pyJoin, List.intercalate, List.intersperse]

/-- Counterexample to C5 as stated: with five segments the revision token
is `rev1` alone; the claimed token `rev1:` (trailing colon) is not in the
resolved command. -/
theorem c5_counterexample :
    handle_package_diff
        [("sp").toList, ("spk").toList, ("tp").toList, ("tpk").toList, ("rev1").toList] [] =
      some [oscTok, rdiffTok, ("sp").toList, ("spk").toList, ("tp").toList,
        ("tpk").toList, revisionTok, ("rev1").toList] ∧
    ("rev1:").toList ∉ [oscTok, rdiffTok, ("sp").toList, ("spk").toList, ("tp").toList,
        ("tpk").toList, revisionTok, ("rev1").toList] := by decide

theorem executedOf_nil : executedOf [] = [] := rfl

theorem executedOf_cons_write (s : Str) (evs : List Ev) :
    executedOf (Ev.write s :: evs) = executedOf evs := rfl

theorem executedOf_cons_exec (c : List Str) (evs : List Ev) :
    executedOf (Ev.exec c :: evs) = c :: executedOf evs := rfl

theorem echoLine_ne_failed (c : List Str) : echoLine c ≠ failedTok := by
  intro h
  unfold echoLine at h
  have h3 : failedTok = 'f' :: ("ailed").toList := rfl
  rw [h3] at h
  injection h with h1 _
  exact absurd h1 (by decide)

theorem failedCount_nil : failedCount [] = 0 := rfl

theorem failedCount_cons_echo (c : List Str) (evs : List Ev) :
    failedCount (Ev.write (echoLine c) :: evs) = failedCount evs := by
  have hne : (Ev.write (echoLine c) == Ev.write failedTok) = false := by
    rw [beq_eq_false_iff_ne]
    intro h
    injection h with h1
    exact echoLine_ne_failed c h1
  simp [failedCount, List.filter_cons, hne]

theorem failedCount_cons_exec (c : List Str) (evs : List Ev) :
    failedCount (Ev.exec c :: evs) = failedCount evs := by
  have hne : (Ev.exec c == Ev.write failedTok) = false := by
    rw [beq_eq_false_iff_ne]
    intro h
    exact Ev.noConfusion h
  simp [failedCount, List.filter_cons, hne]

theorem failedCount_cons_failed (evs : List Ev) :
    failedCount (Ev.write failedTok :: evs) = failedCount evs + 1 := by
  simp [failedCount, List.filter_cons]

/-- C6: the do_POST command loop executes the batch in order and stops at
the first failing command: with `pre` all succeeding and `c` failing, the
executed commands are exactly `pre ++ [c]` (nothing after the failure
runs) and the body token `failed` is written exactly once. -/
theorem c6_batch_short_circuit (execOk : List Str → Bool) (pre : List (List Str))
    (c : List Str) (post : List (List Str))
    (h1 : ∀ x ∈ pre, execOk x = true) (h2 : execOk c = false) :
    executedOf (postLoop execOk (pre ++ c :: post)) = pre ++ [c] ∧
    failedCount (postLoop execOk (pre ++ c :: post)) = 1 := by
  revert h1
  induction pre with
  | nil =>
    intro h1
    simp only [List.nil_append, postLoop, h2, Bool.false_eq_true, if_false]
    constructor
    · rw [executedOf_cons_write (echoLine c), executedOf_cons_exec]
      rfl
    · rw [failedCount_cons_echo, failedCount_cons_exec, failedCount_cons_failed,
        failedCount_nil]
  | cons p pre' ih =>
    intro h1
    have hp : execOk p = true := h1 p (List.mem_cons_self p pre')
    have ih2 := ih (fun x hx => h1 x (List.mem_cons_of_mem p hx))
    show executedOf (postLoop execOk (p :: (pre' ++ c :: post))) = (p :: pre') ++ [c] ∧
      failedCount (postLoop execOk (p :: (pre' ++ c :: post))) = 1
    simp only [postLoop, hp, if_true]
    constructor
    · rw [executedOf_cons_write (echoLine p), executedOf_cons_exec, ih2.1]
      rfl
    · rw [failedCount_cons_echo, failedCount_cons_exec, ih2.2]

/-- Witness for C6: a three-command batch whose second command fails runs
commands one and two, never command three, and writes `failed` once. -/
theorem c6_witness :
    executedOf (postLoop (fun c => !(c == [("b").toList]))
        ([[("a").toList]] ++ [("b").toList] :: [[("c").toList]])) =
      [[("a").toList]] ++ [[("b").toList]] ∧
    failedCount (postLoop (fun c => !(c == [("b").toList]))
        ([[("a").toList]] ++ [("b").toList] :: [[("c").toList]])) = 1 :=
  c6_batch_short_circuit _ [[("a").toList]] [("b").toList] [[("c").toList]]
    (by decide) (by decide)

theorem selectLoop_map (project : Str) (mv : Bool) (l : List (Str × List Str)) :
    selectLoop project mv l =
      l.map (fun p => staging_command project selectTok ++
        (if mv then [moveTok] else []) ++ p.1 :: p.2) := by
  induction l with
  | nil => rfl
  | cons p rest ih =>
    obtain ⟨s, reqs⟩ := p
    simp [selectLoop, ih]

/-- C7: `POST /staging/select` with project `P`, selection mapping
`A ↦ [req1, req2]` and truthy `move` yields exactly the single command
`osc staging -p P select --move A req1 req2`; in general one command is
produced per selection entry, in the mapping's iteration order, with the
`--move` flag present exactly when the body's `move` field is present and
truthy. -/
theorem c7_staging_select :
    (handle_staging_select
        ⟨none, ("P").toList, [(("A").toList, [("req1").toList, ("req2").toList])],
          some true⟩ =
      [[oscTok, stagingTok, pFlagTok, ("P").toList, selectTok, moveTok,
        ("A").toList, ("req1").toList, ("req2").toList]]) ∧
    (∀ d : PostData, handle_staging_select d =
      d.selection.map (fun p => staging_command d.project selectTok ++
        (if d.move.getD false then [moveTok] else []) ++ p.1 :: p.2)) := by
  constructor
  · decide
  · intro d
    exact selectLoop_map d.project (d.move.getD false) d.selection

theorem qGet_first_value (q : Query) (k : Str) (vs : List Str)
    (hq : ParsedQS q) (h : qGet q k = some vs) :
    ∃ v, vs[0]? = some v ∧ v ≠ [] := by
  unfold qGet at h
  rcases hf : q.find? (fun p => p.1 == k) with _ | p
  · rw [hf] at h; cases h
  · rw [hf] at h
    have h2 : p.2 = vs := by simpa using h
    obtain ⟨hne, hall⟩ := hq p (List.mem_of_find?_eq_some hf)
    rcases hvs : vs with _ | ⟨v, rest⟩
    · rw [hvs] at h2
      exact absurd h2 hne
    · refine ⟨v, by simp, ?_⟩
      apply hall
      rw [h2, hvs]
      exact List.mem_cons_self v rest

/-- C8 (amended): the shared output-format helper follows the spec's
precedence — Accept subtype `json`/`yaml` first, else a present `format`
query parameter, else no flag — for every Accept header that is absent,
empty, or contains a `/`, and every `parse_qs` query.  A non-empty
Accept header without `/` instead raises an uncaught IndexError
(`c8_counterexample`). -/
theorem c8_format_precedence (accept : Option Str) (q : Query) (cmd : List Str)
    (hA : accept = none ∨ accept = some [] ∨ '/' ∈ accept.getD [])
    (hQ : ParsedQS q) :
    command_format_add accept q cmd =
      some (match specFormatChoice accept q with
            | some f => cmd ++ [fmtFlagTok, f]
            | none => cmd) := by
  rcases accept with _ | a
  · rcases hf : qGet q formatKey with _ | vs
    · simp [command_format_add, specFormatChoice, otruthy, hf]
    · obtain ⟨v, hv0, hvne⟩ := qGet_first_value q formatKey vs hQ hf
      have hvE : v.isEmpty = false := by
        cases v with
        | nil => exact absurd rfl hvne
        | cons x xs => rfl
      simp [command_format_add, specFormatChoice, otruthy, hf, hv0, hvE, hvne]
  · have ha : a = [] ∨ '/' ∈ a := by
      rcases hA with h | h | h
      · exact absurd h (by simp)
      · exact Or.inl (by injection h)
      · exact Or.inr (by simpa using h)
    rcases ha with rfl | hmem
    · rcases hf : qGet q formatKey with _ | vs
      · simp [command_format_add, specFormatChoice, otruthy, hf, pySplitMax, pySplitMaxAux]
      · obtain ⟨v, hv0, hvne⟩ := qGet_first_value q formatKey vs hQ hf
        have hvE : v.isEmpty = false := by
          cases v with
          | nil => exact absurd rfl hvne
          | cons x xs => rfl
        simp [command_format_add, specFormatChoice, otruthy, hf, hv0, hvE, hvne,
          pySplitMax, pySplitMaxAux]
    · have hane : a ≠ [] := List.ne_nil_of_mem hmem
      have hot : otruthy (some a) = true := otruthy_some a hane
      have hlen : 1 < (pySplitMax '/' 2 a).length := by
        have h3 := pySplitMaxAux_len2 '/' a 1 hmem
        show 1 < (pySplitMaxAux '/' a (1 + 1)).length
        omega
      obtain ⟨sub, hsub⟩ : ∃ sub, (pySplitMax '/' 2 a)[1]? = some sub :=
        ⟨_, List.getElem?_eq_getElem hlen⟩
      cases hjy : (sub == jsonTok || sub == yamlTok) with
      | true =>
        have hsubne : sub ≠ [] := by
          rcases Bool.or_eq_true_iff.mp hjy with h' | h' <;>
            rw [beq_iff_eq.mp h'] <;> decide
        simp [command_format_add, specFormatChoice, hot, hsub, hjy, hsubne]
      | false =>
        rcases hf : qGet q formatKey with _ | vs
        · simp [command_format_add, specFormatChoice, hot, hsub, hjy, hf]
        · obtain ⟨v, hv0, hvne⟩ := qGet_first_value q formatKey vs hQ hf
          have hvE : v.isEmpty = false := by
            cases v with
            | nil => exact absurd rfl hvne
            | cons x xs => rfl
          simp [command_format_add, specFormatChoice, hot, hsub, hjy, hf, hv0, hvE,
            hvne]

/-- Witness for C8: Accept `application/json` wins over a `format=yaml`
query parameter. -/
theorem c8_witness :
    command_format_add (some (("application/json").toList))
        [(formatKey, [yamlTok])] [oscTok] =
      some [oscTok, fmtFlagTok, jsonTok] := by
  have h := c8_format_precedence (some (("application/json").toList))
      [(formatKey, [yamlTok])] [oscTok]
      (Or.inr (Or.inr (by decide))) (by unfold ParsedQS; decide)
  exact h.trans (by decide)

/-- Counterexample to C8 as stated: a non-empty Accept header without a
slash (`json`) has no subtype, so by the claimed precedence the present
`format=yaml` parameter should be used; the code instead raises an
IndexError at `split('/', 2)[1]` and never appends any flag. -/
theorem c8_counterexample :
    command_format_add (some (("json").toList)) [(formatKey, [yamlTok])] [oscTok] = none ∧
    specFormatChoice (some (("json").toList)) [(formatKey, [yamlTok])] = some yamlTok ∧
    command_format_add (some (("json").toList)) [(formatKey, [yamlTok])] [oscTok] ≠
      some ([oscTok] ++ [fmtFlagTok, yamlTok]) := by decide

theorem validationGate_false_code (cfg : Config) (req : Request) (m : ExcMsg)
    (h : validationGate cfg req false = some m) : excCode m = 400 := by
  unfold validationGate at h
  simp only [Bool.false_and, Bool.false_eq_true, if_false] at h
  split at h
  · injection h with h'
    rw [← h']
    split <;> rfl
  · cases h

theorem enterEv_raised_false (cfg : Config) (req : Request) (u : Option Str)
    (fs : FsB) (t : Int) (m : ExcMsg)
    (h : (enterEv cfg req u false fs t).2 = EnterRes.raised m) :
    enterEv cfg req u false fs t =
      ([Ev.sendResponse 400, Ev.endHeaders], EnterRes.raised m) := by
  rcases hv : validationGate cfg req false with _ | m'
  · simp only [enterEv, hv] at h
    split at h <;> cases h
  · have heq : m' = m := by
      simp only [enterEv, hv] at h
      exact EnterRes.raised.inj h
    subst heq
    have hc := validationGate_false_code cfg req m' hv
    simp only [enterEv, hv, hc]

/-- C9 (amended): for every OPTIONS request whose origin/endpoint
validation fails, the response consists of the 400 status line and its
header terminator followed by the line `Allow: OPTIONS, GET, POST` and a
second terminator — because `__enter__` already called `end_headers()`
before raising, the Allow line is flushed after the header block (it sits
in the body region, not the header section), and the two CORS lines of a
passing OPTIONS response are absent. -/
theorem c9_allow_line_in_body (cfg : Config) (req : Request) (fs : FsB) (t : Int)
    (m : ExcMsg)
    (h : (enterEv cfg req none false fs t).2 = EnterRes.raised m) :
    wireOf (do_OPTIONS cfg req fs t) =
      [WireLine.status 400, WireLine.blank, WireLine.header allowKey allowVal,
       WireLine.blank] ∧
    WireLine.header allowKey allowVal ∉
      headerSectionOf (wireOf (do_OPTIONS cfg req fs t)) ∧
    WireLine.header acMethodsKey acMethodsVal ∉ wireOf (do_OPTIONS cfg req fs t) ∧
    WireLine.header acHeadersKey acHeadersVal ∉ wireOf (do_OPTIONS cfg req fs t) := by
  have hform := enterEv_raised_false cfg req none fs t m h
  have htr : do_OPTIONS cfg req fs t =
      [Ev.sendResponse 400, Ev.endHeaders, Ev.sendHeader allowKey allowVal,
       Ev.endHeaders] := by
    simp [do_OPTIONS, hform]
  rw [htr]
  decide

/-- Witness for C9: an OPTIONS request with no Host header fails
validation; the wire shows the Allow line after the header terminator and
no CORS lines. -/
theorem c9_witness :
    wireOf (do_OPTIONS ⟨none, none⟩ ⟨⟨none, none, none⟩, none, [], []⟩ fsOk 0) =
      [WireLine.status 400, WireLine.blank, WireLine.header allowKey allowVal,
       WireLine.blank] ∧
    WireLine.header allowKey allowVal ∉
      headerSectionOf (wireOf (do_OPTIONS ⟨none, none⟩ ⟨⟨none, none, none⟩, none, [], []⟩
        fsOk 0)) ∧
    WireLine.header acMethodsKey acMethodsVal ∉
      wireOf (do_OPTIONS ⟨none, none⟩ ⟨⟨none, none, none⟩, none, [], []⟩ fsOk 0) ∧
    WireLine.header acHeadersKey acHeadersVal ∉
      wireOf (do_OPTIONS ⟨none, none⟩ ⟨⟨none, none, none⟩, none, [], []⟩ fsOk 0) :=
  c9_allow_line_in_body _ _ _ _ ExcMsg.endpointUndetermined (by decide)

/-- Counterexample to C9 as stated: on a validation-failing OPTIONS
request the line `Allow: OPTIONS, GET, POST` is not an HTTP header of the
response — the header section (wire lines before the first blank) is just
the 400 status line. -/
theorem c9_counterexample :
    (enterEv ⟨none, none⟩ ⟨⟨none, none, none⟩, none, [], []⟩ none false fsOk 0).2 =
      EnterRes.raised ExcMsg.endpointUndetermined ∧
    headerSectionOf (wireOf (do_OPTIONS ⟨none, none⟩ ⟨⟨none, none, none⟩, none, [], []⟩
        fsOk 0)) = [WireLine.status 400] ∧
    WireLine.header allowKey allowVal ∉
      headerSectionOf (wireOf (do_OPTIONS ⟨none, none⟩ ⟨⟨none, none, none⟩, none, [], []⟩
        fsOk 0)) := by decide

/-- C10: every GET request whose path splits into exactly two segments is
answered 404 — even when those two segments form an allow-listed route
key, as dispatch requires at least three segments — while
`GET /origin/projects/` (third segment present but empty) is dispatched
and executes `osc origin projects`. -/
theorem c10_two_segment_404 :
    (∀ (cfg : Config) (req : Request) (fs : FsB) (execOk : List Str → Bool) (t : Int),
      (pySplit '/' (req.path.dropWhile (fun c => c == '/'))).length = 2 →
      do_GET cfg req fs execOk t = [Ev.sendResponse 404, Ev.endHeaders]) ∧
    Ev.exec [oscTok, originTok, projectsTok] ∈
      do_GET ⟨none, some (("s").toList)⟩
        ⟨⟨some (("b.example.com").toList), none, none⟩, none,
          ("/origin/projects/").toList, []⟩
        fsOk (fun _ => true) 0 := by
  constructor
  · intro cfg req fs execOk t h
    obtain ⟨a, b, hab⟩ := List.length_eq_two.mp h
    have hrk : pyJoin '/' (List.take 2 [a, b]) = a ++ '/' :: b := by
      simp [pyJoin, List.intercalate, List.intersperse]
    have hne : a ++ '/' :: b ≠ [] := by simp
    have hl3 : ([a, b] : List Str).length < 3 := by simp
    simp only [do_GET, hab, hrk]
    rw [if_neg hne, if_pos (Or.inl hl3)]
  · decide

/-- Witness for C10: `GET /origin/projects` (exactly two segments, an
allow-listed route key) is answered 404. -/
theorem c10_witness :
    do_GET ⟨none, some (("s").toList)⟩
      ⟨⟨some (("b.example.com").toList), none, none⟩, none,
        ("/origin/projects").toList, []⟩
      fsOk (fun _ => true) 0 = [Ev.sendResponse 404, Ev.endHeaders] :=
  c10_two_segment_404.1 _ _ _ _ _ (by decide)
